import Mathlib

/-!
Shallow embedding of the schema-driven preprocessing and ONNX export logic of
the realtime-ml-inference repository.

Sources embedded here:
* `src/src/train_lightgbm.py` — `load_and_preprocess`, `export_onnx` (input
  declarations, IR-version reconciliation, `sync_default_opset`), the fitted
  preprocessing stage (ColumnTransformer: numeric passthrough + OneHotEncoder).
  `src/src/train_random_forest.py` has a byte-identical `load_and_preprocess`
  and categorical loop, so one embedding covers both.
* `src/generate_schema.py` — `infer_schema`.

Modelling conventions: pandas cells are `Option Value` (missing = `none`);
numeric values are rationals (CSV/pandas floats idealised as exact rationals;
no claim below depends on float rounding); a DataFrame is an association list
from column name to cell list; fallible pandas operations (`df[[...]]`
selection raising KeyError, `astype(int64)` raising on NaN) are embedded as
`Except`/`Option`.
-/

namespace RtMl

/-- A cell value of a pandas column: a number (float/int idealised as `ℚ`)
or a string. -/
inductive Value where
  | num (q : ℚ)
  | str (s : String)
deriving DecidableEq, Repr

/-- A pandas cell: `none` is the missing marker (NaN). -/
abbrev Cell := Option Value

/-- A dataframe: association list of column name to column cells.
Column lookup takes the first matching name. -/
abbrev DataFrame := List (String × List Cell)

/-- One entry of the schema's `numeric` list: `{name, impute}`. -/
structure NumCol where
  name : String
  impute : String
deriving DecidableEq, Repr

/-- One entry of the schema's `categorical` list: `{name, impute, encode}`. -/
structure CatCol where
  name : String
  impute : String
  encode : String
deriving DecidableEq, Repr

/-- The YAML schema: `{target, numeric, categorical}`. -/
structure Schema where
  target : String
  numeric : List NumCol
  categorical : List CatCol
deriving DecidableEq, Repr

/-- The errors `load_and_preprocess` can raise: `KeyError` from the column
selection `df[[target, *feature_cols]]` (a schema column absent from the
dataset), the explicit `ValueError` for a non-binary target (carrying the
target column name and the offending distinct values, as in the f-string at
`train_lightgbm.py:95-98`), and the `IntCastingNaNError` that
`astype(np.int64)` raises when a missing value reaches the integer cast. -/
inductive PError where
  | schemaMismatch (column : String)
  | nonBinaryTarget (column : String) (vals : List Value)
  | intCastOnMissing
deriving DecidableEq, Repr

/-- Column lookup, first matching name wins (pandas label lookup on a frame
with unique column labels). -/
def getCol? : DataFrame → String → Option (List Cell)
  | [], _ => none
  | p :: rest, name => if p.1 = name then some p.2 else getCol? rest name

/-- Column lookup with an (unreachable after selection) empty default. -/
def getColD (df : DataFrame) (name : String) : List Cell :=
  (getCol? df name).getD []

/-- Assignment `df[col] = c`: replace the cells of every column named `name`. -/
def setCol (df : DataFrame) (name : String) (c : List Cell) : DataFrame :=
  df.map (fun p => if p.1 = name then (p.1, c) else p)

/-- Selection `df[[n₁, …, nₖ]]`: build the selected frame in the requested order;
a missing column raises `KeyError` (modelled with the first absent name). -/
def selectCols (df : DataFrame) : List String → Except PError DataFrame
  | [] => .ok []
  | n :: rest =>
    match getCol? df n with
    | none => .error (.schemaMismatch n)
    | some c => (selectCols df rest).map (fun s => (n, c) :: s)

/-- Decimal value of one digit character, or `none`. -/
def digitVal? (c : Char) : Option Nat :=
  if 48 ≤ c.toNat ∧ c.toNat ≤ 57 then some (c.toNat - 48) else none

/-- Accumulate a decimal number over characters; fails on a non-digit. -/
def digitsGo (acc : Nat) : List Char → Option Nat
  | [] => some acc
  | c :: rest =>
    match digitVal? c with
    | some d => digitsGo (acc * 10 + d) rest
    | none => none

/-- Parse a non-empty all-digit character run as a decimal number. -/
def digitsVal? : List Char → Option Nat
  | [] => none
  | cs => digitsGo 0 cs

/-- Parse an optionally signed decimal integer from characters. -/
def intOfChars? : List Char → Option Int
  | [] => none
  | c :: rest =>
    if c = '-' then (digitsVal? rest).map (fun n => -(n : Int))
    else if c = '+' then (digitsVal? rest).map (fun n => (n : Int))
    else (digitsVal? (c :: rest)).map (fun n => (n : Int))

/-- Split a character run at the first '.', if any. -/
def splitDot : List Char → List Char × Option (List Char)
  | [] => ([], none)
  | c :: rest =>
    if c = '.' then ([], some rest)
    else
      let r := splitDot rest
      (c :: r.1, r.2)

/-- Parse a CSV/scalar literal as a number, as `pd.to_numeric` does for
integer and decimal literals ("42", "-7", "+3", "3.5", "-0.5").  Exponents
and bare-dot spellings ("1e3", ".5", "5.") are out of scope of this model;
no claim exercises them. -/
def parseNum? (s : String) : Option ℚ :=
  match splitDot s.data with
  | (intPart, none) => (intOfChars? intPart).map (fun n => (n : ℚ))
  | (intPart, some fracPart) =>
    match intOfChars? intPart, digitsVal? fracPart with
    | some ia, some nb =>
      let frac : ℚ := (nb : ℚ) / (10 : ℚ) ^ fracPart.length
      some (if intPart.head? = some ('-' : Char) then (ia : ℚ) - frac
        else (ia : ℚ) + frac)
    | _, _ => none

/-- Coercion `pd.to_numeric(df[col], errors="coerce")` on one cell: numbers pass
through, numeric strings parse, everything else becomes the missing marker. -/
def toNumericCell : Cell → Cell
  | none => none
  | some (.num q) => some (.num q)
  | some (.str s) => (parseNum? s).map .num

/-- Insert into a sorted list (ascending). -/
def insertSorted (x : ℚ) : List ℚ → List ℚ
  | [] => [x]
  | y :: rest => if x ≤ y then x :: y :: rest else y :: insertSorted x rest

/-- Sort rationals ascending (insertion sort; the median only depends on the
sorted order, so this is a faithful model of pandas' sort-based median). -/
def sortRats (l : List ℚ) : List ℚ := l.foldr insertSorted []

/-- Median `Series.median()` over the non-missing values: middle element for odd
length, average of the two middle elements for even length, NaN (`none`) for
an empty input. -/
def median? (l : List ℚ) : Option ℚ :=
  let s := sortRats l
  if s.length = 0 then none
  else if s.length % 2 = 1 then s[s.length / 2]?
  else
    match s[s.length / 2 - 1]?, s[s.length / 2]? with
    | some a, some b => some ((a + b) / 2)
    | _, _ => none

/-- The numeric-column loop body of `load_and_preprocess`
(`train_lightgbm.py:81-83`): coerce to numeric, then fill missing cells with
the column median (an all-missing column has a NaN median, and
`fillna(NaN)` leaves the column unchanged). -/
def processNumeric (col : List Cell) : List Cell :=
  let c := col.map toNumericCell
  let obs := c.filterMap (fun x =>
    match x with
    | some (.num q) => some q
    | _ => none)
  match median? obs with
  | some m => c.map (fun x => some (x.getD (.num m)))
  | none => c

/-- Stringification `str(cell)` as applied by `Series.astype(str)`: the float-NaN missing
marker stringifies to "nan"; numbers stringify via their decimal form
(Python's exact float repr is idealised as the rational's `toString`; no
claim depends on it). -/
def stringifyCell : Cell → String
  | none => "nan"
  | some (.str s) => s
  | some (.num q) => toString q

/-- Cast `astype(str)` on one cell: always produces a (non-missing) string. -/
def astypeStr (c : Cell) : Cell :=
  some (.str (stringifyCell c))

/-- First-occurrence deduplication, keeping encounter order, with an
accumulator of already-seen values. -/
def uniqueGo (seen : List Value) : List Value → List Value
  | [] => []
  | v :: rest =>
    if v ∈ seen then uniqueGo seen rest else v :: uniqueGo (v :: seen) rest

/-- Deduplication `Series.unique()`: distinct values in order of first appearance. -/
def uniqueFirst (l : List Value) : List Value := uniqueGo [] l

/-- Tie-break order used by `Series.mode()[0]`: pandas sorts the modal values
ascending, so `[0]` is the least one.  Mixed-type comparison would raise in
pandas and is unreachable after `astype(str)`; the first argument is kept. -/
def valueMin (a b : Value) : Value :=
  match a, b with
  | .str x, .str y => if x < y then a else b
  | .num x, .num y => if x ≤ y then a else b
  | _, _ => a

/-- Mode `df[col].mode(dropna=True)[0]`: among the non-missing values of maximal
count, the least (pandas returns the modes sorted ascending).  `none` models
the `KeyError` that `[0]` would raise on an empty mode series; it is
unreachable on the branch where the code calls it. -/
def modeValue? (col : List Cell) : Option Value :=
  let vals := col.filterMap id
  let cands := uniqueFirst vals
  let counts := cands.map (fun v => vals.countP (fun u => decide (u = v)))
  let maxCount := counts.foldl max 0
  let best := cands.filter (fun v =>
    decide (vals.countP (fun u => decide (u = v)) = maxCount))
  match best with
  | [] => none
  | b :: rest => some (rest.foldl valueMin b)

/-- The categorical-column loop body of `load_and_preprocess`
(`train_lightgbm.py:84-89` = `train_random_forest.py:77-82`): stringify all
cells with `astype(str)`, then either fill an all-null column with "" or fill
nulls with the mode.  (Because `astype(str)` runs first, no null remains when
the checks run.) -/
def processCategorical (col : List Cell) : List Cell :=
  let s := col.map astypeStr
  if s.all (fun c => c.isNone) then
    s.map (fun c => some (c.getD (.str "")))
  else
    match modeValue? s with
    | some m => s.map (fun c => some (c.getD m))
    | none => s

/-- Cast `astype(np.int64)` on one value: rationals truncate toward zero (numpy
float-to-int cast); integer strings parse (unreachable in the branch that
uses this — the subset-of-{0,1} branch only ever sees the numbers 0 and 1). -/
def toInt64 : Value → Option Int
  | .num q => some (q.num.tdiv (q.den : Int))
  | .str s => intOfChars? s.data

/-- Cast a whole series to int64: any missing cell (or unconvertible value)
makes the whole cast raise, as `astype(np.int64)` does. -/
def seriesToInt (g : Value → Option Int) : List Cell → Option (List Int)
  | [] => some []
  | c :: rest =>
    match c.bind g, seriesToInt g rest with
    | some i, some ys => some (i :: ys)
    | _, _ => none

/-- Index of a value in the distinct-value list: the dict
`{val: idx for idx, val in enumerate(unique_vals)}` applied to one value. -/
def findIdxOf (v : Value) : List Value → Option Nat
  | [] => none
  | u :: rest => if u = v then some 0 else (findIdxOf v rest).map (fun n => n + 1)

/-- The encounter-order target mapping of `train_lightgbm.py:102`:
`y_series.map(mapping)` sends values absent from the dict to NaN. -/
def targetMapping (uniqueVals : List Value) (v : Value) : Option Int :=
  (findIdxOf v uniqueVals).map Int.ofNat

/-- Check of `set(unique_vals)` being a subset of the pair 0, 1 (`train_lightgbm.py:99`). -/
def subset01 (vs : List Value) : Bool :=
  vs.all (fun v => decide (v = Value.num 0 ∨ v = Value.num 1))

/-- The target-resolution block of `load_and_preprocess`
(`train_lightgbm.py:92-103`): collect the distinct non-missing values; more
than two distinct values raise the non-binary-target error; a distinct set
inside {0,1} is cast directly with `astype(np.int64)`; otherwise the values
are mapped to their first-appearance index and then cast. -/
def resolveTarget (target : String) (tcol : List Cell) : Except PError (List Int) :=
  let uniqueVals := uniqueFirst (tcol.filterMap id)
  if 2 < uniqueVals.length then
    .error (.nonBinaryTarget target uniqueVals)
  else if subset01 uniqueVals then
    match seriesToInt toInt64 tcol with
    | some y => .ok y
    | none => .error .intCastOnMissing
  else
    match seriesToInt (targetMapping uniqueVals) tcol with
    | some y => .ok y
    | none => .error .intCastOnMissing

/-- The schema's feature-column order: `numeric_cols + categorical_cols`
(`train_lightgbm.py:76-78`). -/
def featureCols (schema : Schema) : List String :=
  schema.numeric.map (fun c => c.name) ++ schema.categorical.map (fun c => c.name)

/-- One preprocessing loop over the selected frame: for each listed column,
replace it with `proc` of its current cells (the `for col in …:` loops at
`train_lightgbm.py:81-89`). -/
def applyCols (proc : List Cell → List Cell) (ns : List String) (f : DataFrame) : DataFrame :=
  ns.foldl (fun f n => setCol f n (proc (getColD f n))) f

/-- Function `load_and_preprocess(csv_path, schema)` of `src/src/train_lightgbm.py`
(lines 73-104; identical in `src/src/train_random_forest.py`), starting from
the already-loaded dataframe: select `[target, *feature_cols]`, process
numeric then categorical columns in place, take `X = df[feature_cols]`,
resolve the target, and return `(X, y, numeric_cols, categorical_cols)`. -/
def load_and_preprocess (df : DataFrame) (schema : Schema) :
    Except PError (DataFrame × List Int × List String × List String) :=
  let numeric_cols := schema.numeric.map (fun c => c.name)
  let categorical_cols := schema.categorical.map (fun c => c.name)
  match selectCols df (schema.target :: featureCols schema) with
  | .error e => .error e
  | .ok sel0 =>
    let sel := applyCols processCategorical categorical_cols
      (applyCols processNumeric numeric_cols sel0)
    let X := (featureCols schema).map (fun n => (n, getColD sel n))
    match resolveTarget schema.target (getColD sel schema.target) with
    | .error e => .error e
    | .ok y => .ok (X, y, numeric_cols, categorical_cols)

/-! ### Schema inference (`src/generate_schema.py`) -/

/-- Whether a sampled CSV column gets a numeric dtype from `read_csv`, i.e.
`pd.api.types.is_numeric_dtype(df[col])`: every sampled cell is empty
(missing), a numeric literal, or one of the boolean literals (pandas parses
all-True/False columns as bool, a numeric dtype). -/
def isNumericCol (cells : List String) : Bool :=
  cells.all (fun s =>
    decide (s = "") || (parseNum? s).isSome || decide (s = "True") || decide (s = "False"))

/-- Function `infer_schema(csv_path, target, exclude)` of `generate_schema.py:29-43`,
starting from the sampled raw frame (the caller reads at most 5000 rows):
drop excluded columns and the target, classify each remaining column by
dtype, and emit the default policies. -/
def infer_schema (cols : List (String × List String)) (target : String)
    (exclude : List String) : Schema :=
  let cands := cols.filter (fun p => decide (p.1 ∉ exclude) && decide (p.1 ≠ target))
  let parts := cands.partition (fun p => isNumericCol p.2)
  { target := target
    numeric := parts.1.map (fun p => { name := p.1, impute := "median" })
    categorical := parts.2.map (fun p =>
      { name := p.1, impute := "most_frequent", encode := "onehot" }) }

/-! ### ONNX fragments: input declarations, IR/opset reconciliation -/

/-- Tensor element types used by the export's input declarations. -/
inductive TensorElem where
  | float
  | string
deriving DecidableEq, Repr

/-- A declared tensor: name, element type, shape (`none` = unbounded batch
dimension). -/
structure TensorDecl where
  name : String
  elem : TensorElem
  shape : List (Option Nat)
deriving DecidableEq, Repr

/-- The `initial_type` list built at `train_lightgbm.py:172-176` (identical
in `train_random_forest.py:123-127`): one `[None, 1]` float tensor per
numeric column, then one `[None, 1]` string tensor per categorical column. -/
def initialTypes (numeric_cols categorical_cols : List String) : List TensorDecl :=
  numeric_cols.map (fun c => { name := c, elem := .float, shape := [none, some 1] })
    ++ categorical_cols.map (fun c => { name := c, elem := .string, shape := [none, some 1] })

/-- One `opset_import` record: operator domain ("" = default domain) and
version. -/
structure OpsetId where
  domain : String
  version : Int
deriving DecidableEq, Repr

/-- The metadata of an ONNX model fragment that the merge logic touches. -/
structure OnnxModel where
  ir_version : Int
  opset_import : List OpsetId
deriving DecidableEq, Repr

/-- The loop of `get_version` over the record list: return the version of
the first record for `domain`, or fall through to 0. -/
def get_version_list : List OpsetId → String → Int
  | [], _ => 0
  | o :: rest, d => if o.domain = d then o.version else get_version_list rest d

/-- Function `get_version(model, domain)` (`train_lightgbm.py:193-197`): the version
of the first `opset_import` record for `domain`, or 0 when none exists. -/
def get_version (m : OnnxModel) (domain : String) : Int :=
  get_version_list m.opset_import domain

/-- The list update done by `set_version` (`train_lightgbm.py:199-204`):
set the version on the first record for `domain` and stop; append a fresh
record when none matches. -/
def set_opset : List OpsetId → String → Int → List OpsetId
  | [], d, v => [{ domain := d, version := v }]
  | o :: rest, d, v =>
    if o.domain = d then { domain := d, version := v } :: rest
    else o :: set_opset rest d v

/-- Function `set_version(model, domain, version)`. -/
def set_version (m : OnnxModel) (domain : String) (version : Int) : OnnxModel :=
  { m with opset_import := set_opset m.opset_import domain version }

/-- Function `sync_default_opset(model_a, model_b)` (`train_lightgbm.py:192-208`):
take the maximum of the two default-domain versions (0 when absent) and set
it on both fragments. -/
def sync_default_opset (a b : OnnxModel) : OnnxModel × OnnxModel :=
  let v := max (get_version a "") (get_version b "")
  (set_version a "" v, set_version b "" v)

/-- The version reconciliation performed before `merge_models`
(`train_lightgbm.py:188-190` and `:210`): set both IR versions to their
maximum, then sync the default-domain opsets. -/
def reconcile (a b : OnnxModel) : OnnxModel × OnnxModel :=
  let m := max a.ir_version b.ir_version
  sync_default_opset { a with ir_version := m } { b with ir_version := m }

/-! ### The fitted preprocessing stage and the model fragment's input width -/

/-- The fitted `ColumnTransformer` of `train_model`: numeric columns pass
through, each categorical column is one-hot encoded against the category
list learned at fit time (`OneHotEncoder(handle_unknown="ignore")`). -/
structure FittedPreprocess where
  numericCols : List String
  catCols : List (String × List String)
deriving DecidableEq, Repr

/-- One-hot encode a single value against a fitted category list; an unknown
value encodes to all zeros (`handle_unknown="ignore"`). -/
def oneHot (cats : List String) (v : String) : List ℚ :=
  cats.map (fun c => if c = v then (1 : ℚ) else 0)

/-- Transform `preprocess.transform` on one row (numeric values in column order, then
categorical values in column order): passthrough numerics, concatenated
one-hot blocks. -/
def transformRow (p : FittedPreprocess) (nums : List ℚ) (cats : List String) : List ℚ :=
  nums ++ ((p.catCols.zip cats).map (fun pc => oneHot pc.1.2 pc.2)).flatten

/-- Width `transformed.shape[1]` at `train_lightgbm.py:180-183`: the width of the
output of transforming exactly one row of real data. -/
def transformed_dim (p : FittedPreprocess) (nums : List ℚ) (cats : List String) : Nat :=
  (transformRow p nums cats).length

/-- Declaration `lgb_initial_type` at `train_lightgbm.py:184-185`: the model fragment's
single declared input, a float tensor of the empirically measured width. -/
def lgb_initial_type (p : FittedPreprocess) (nums : List ℚ) (cats : List String) :
    List TensorDecl :=
  [{ name := "preprocessed", elem := .float,
     shape := [none, some (transformed_dim p nums cats)] }]

/-! ### Concrete example data used by the witness and counterexample theorems -/

/-- A four-row Titanic-style frame with one missing Age and one missing Sex. -/
def dfW1 : DataFrame :=
  [("Survived", [some (.num 0), some (.num 1), some (.num 0), some (.num 0)]),
   ("Age", [some (.num 22), none, some (.num 40), some (.num 30)]),
   ("Sex", [some (.str "m"), some (.str "f"), none, some (.str "f")])]

/-- Schema for `dfW1`: one numeric column, one categorical column. -/
def schemaW1 : Schema :=
  { target := "Survived"
    numeric := [{ name := "Age", impute := "median" }]
    categorical := [{ name := "Sex", impute := "most_frequent", encode := "onehot" }] }

/-- The feature table `load_and_preprocess` produces for `dfW1`/`schemaW1`:
Age imputed to the median 30, the missing Sex carried as the string "nan". -/
def XW1 : DataFrame :=
  [("Age", [some (.num 22), some (.num 30), some (.num 40), some (.num 30)]),
   ("Sex", [some (.str "m"), some (.str "f"), some (.str "nan"), some (.str "f")])]

/-- A frame whose categorical column has one observed value and one missing
cell — the most-frequent fill should (per spec) produce "male" for row 2. -/
def dfC2 : DataFrame :=
  [("Survived", [some (.num 0), some (.num 1)]),
   ("Sex", [some (.str "male"), none])]

/-- Schema for `dfC2`. -/
def schemaC2 : Schema :=
  { target := "Survived"
    numeric := []
    categorical := [{ name := "Sex", impute := "most_frequent", encode := "onehot" }] }

/-- A frame whose target has distinct non-missing values {0} ⊆ {0,1} but also
a missing entry. -/
def dfC3x : DataFrame := [("t", [some (.num 0), none])]

/-- Feature-less schema with target "t". -/
def schemaC3x : Schema := { target := "t", numeric := [], categorical := [] }

/-- A frame whose target is fully observed with values {1, 0}. -/
def dfC3w : DataFrame := [("t", [some (.num 1), some (.num 0), some (.num 1)])]

/-- Feature-less schema with target "t" (binary-target example). -/
def schemaC3w : Schema := { target := "t", numeric := [], categorical := [] }

/-- A frame whose target values are strings in reverse-alphabetical
encounter order: "z" first, then "a". -/
def dfC6 : DataFrame :=
  [("t", [some (.str "z"), some (.str "a"), some (.str "z")])]

/-- Feature-less schema with target "t" (encounter-order example). -/
def schemaC6 : Schema := { target := "t", numeric := [], categorical := [] }

/-- A frame whose target has a missing entry and one distinct value "x". -/
def dfC10 : DataFrame := [("u", [some (.str "x"), none])]

/-- Feature-less schema with target "u". -/
def schemaC10 : Schema := { target := "u", numeric := [], categorical := [] }

/-- A fragment with no default-domain opset record. -/
def onnxA4 : OnnxModel := { ir_version := 8, opset_import := [⟨"ai.onnx.ml", 2⟩] }

/-- A fragment with a default-domain opset record of version 15. -/
def onnxB4 : OnnxModel := { ir_version := 9, opset_import := [⟨"", 15⟩] }

/-- A fragment with both a default-domain and a named-domain record. -/
def onnxA8 : OnnxModel := { ir_version := 8, opset_import := [⟨"", 13⟩, ⟨"ai.onnx.ml", 2⟩] }

/-- A fragment with only a named-domain record. -/
def onnxB8 : OnnxModel := { ir_version := 9, opset_import := [⟨"ai.onnx.ml", 3⟩] }

/-- A fitted preprocessor with one numeric column and one categorical column
of cardinality 3, so one-hot expansion widens 2 schema columns to 4 model
inputs. -/
def fpEx : FittedPreprocess :=
  { numericCols := ["Age"], catCols := [("Embarked", ["C", "Q", "S"])] }

/-- A sampled raw frame for schema inference: an ID column, a string column,
a numeric column with a missing cell, and the target. -/
def colsC7 : List (String × List String) :=
  [("PassengerId", ["1", "2"]), ("Name", ["Ann", "Bo"]),
   ("Age", ["22", ""]), ("Survived", ["0", "1"])]

/-! ### Helper lemmas about the frame operations -/

theorem getCol?_setCol_ne (m n : String) (c : List Cell) (h : n ≠ m) :
    ∀ f : DataFrame, getCol? (setCol f m c) n = getCol? f n := by
  intro f
  induction f with
  | nil => rfl
  | cons p rest ih =>
    have hsc : setCol (p :: rest) m c
        = (if p.1 = m then (p.1, c) else p) :: setCol rest m c := rfl
    by_cases hm : p.1 = m
    · rw [hsc, if_pos hm]
      have hn : p.1 ≠ n := fun hh => h (hh ▸ hm)
      show (if p.1 = n then some c else getCol? (setCol rest m c) n)
        = if p.1 = n then some p.2 else getCol? rest n
      rw [if_neg hn, if_neg hn]
      exact ih
    · rw [hsc, if_neg hm]
      show (if p.1 = n then some p.2 else getCol? (setCol rest m c) n)
        = if p.1 = n then some p.2 else getCol? rest n
      by_cases hn : p.1 = n
      · rw [if_pos hn, if_pos hn]
      · rw [if_neg hn, if_neg hn]
        exact ih

theorem getCol?_applyCols_ne (proc : List Cell → List Cell) (t : String) :
    ∀ (ns : List String), t ∉ ns →
      ∀ f : DataFrame, getCol? (applyCols proc ns f) t = getCol? f t := by
  intro ns
  induction ns with
  | nil => intro _ f; rfl
  | cons n rest ih =>
    intro h f
    have htn : t ≠ n := fun hh => h (hh ▸ List.mem_cons_self n rest)
    have hrest : t ∉ rest := fun hh => h (List.mem_cons_of_mem n hh)
    show getCol? (applyCols proc rest (setCol f n (proc (getColD f n)))) t = getCol? f t
    rw [ih hrest, getCol?_setCol_ne n t _ htn]

theorem selectCols_ok_of_isSome (df : DataFrame) :
    ∀ names : List String, (∀ n ∈ names, (getCol? df n).isSome = true) →
      ∃ sel, selectCols df names = .ok sel := by
  intro names
  induction names with
  | nil => exact fun _ => ⟨[], rfl⟩
  | cons n rest ih =>
    intro h
    obtain ⟨c, hc⟩ := Option.isSome_iff_exists.mp (h n (List.mem_cons_self n rest))
    obtain ⟨sel, hsel⟩ := ih (fun m hm => h m (List.mem_cons_of_mem n hm))
    exact ⟨(n, c) :: sel, by simp [selectCols, hc, hsel, Except.map]⟩

theorem getCol?_selectCols (df : DataFrame) :
    ∀ (names : List String) (sel : DataFrame), selectCols df names = .ok sel →
      ∀ n ∈ names, getCol? sel n = getCol? df n := by
  intro names
  induction names with
  | nil => intro sel _ n hn; cases hn
  | cons m rest ih =>
    intro sel hsel n hn
    cases hm : getCol? df m with
    | none =>
      have : selectCols df (m :: rest) = .error (.schemaMismatch m) := by
        simp [selectCols, hm]
      rw [this] at hsel
      cases hsel
    | some c =>
      cases hr : selectCols df rest with
      | error e =>
        have : selectCols df (m :: rest) = .error e := by
          simp [selectCols, hm, hr, Except.map]
        rw [this] at hsel
        cases hsel
      | ok sel' =>
        have hx : selectCols df (m :: rest) = .ok ((m, c) :: sel') := by
          simp [selectCols, hm, hr, Except.map]
        rw [hx] at hsel
        injection hsel with he
        subst he
        by_cases hnm : m = n
        · subst hnm; simpa [getCol?] using hm.symm
        · have hmem : n ∈ rest := by
            rcases List.mem_cons.mp hn with h1 | h1
            · exact absurd h1.symm hnm
            · exact h1
          simpa [getCol?, hnm] using ih sel' hr n hmem

theorem lp_eq_resolve (df : DataFrame) (schema : Schema) (tcol : List Cell)
    (hall : ∀ n ∈ schema.target :: featureCols schema, (getCol? df n).isSome = true)
    (ht : getCol? df schema.target = some tcol)
    (hn1 : schema.target ∉ schema.numeric.map NumCol.name)
    (hn2 : schema.target ∉ schema.categorical.map CatCol.name) :
    ∃ X, load_and_preprocess df schema =
      (resolveTarget schema.target tcol).map
        (fun y => (X, y, schema.numeric.map NumCol.name,
          schema.categorical.map CatCol.name)) := by
  obtain ⟨sel0, hsel⟩ := selectCols_ok_of_isSome df _ hall
  have hget0 : getCol? sel0 schema.target = some tcol := by
    rw [getCol?_selectCols df _ sel0 hsel schema.target
      (List.mem_cons_self _ _), ht]
  have hget : getCol? (applyCols processCategorical
      (schema.categorical.map CatCol.name)
      (applyCols processNumeric (schema.numeric.map NumCol.name) sel0))
      schema.target = some tcol := by
    rw [getCol?_applyCols_ne processCategorical _ _ hn2,
      getCol?_applyCols_ne processNumeric _ _ hn1, hget0]
  refine ⟨(featureCols schema).map (fun n => (n, getColD
    (applyCols processCategorical (schema.categorical.map CatCol.name)
      (applyCols processNumeric (schema.numeric.map NumCol.name) sel0)) n)), ?_⟩
  have hD : getColD (applyCols processCategorical
      (schema.categorical.map CatCol.name)
      (applyCols processNumeric (schema.numeric.map NumCol.name) sel0))
      schema.target = tcol := by
    rw [getColD, hget]; rfl
  unfold load_and_preprocess
  simp only [hsel, hD]
  cases hres : resolveTarget schema.target tcol <;> rfl

/-! ### Helper lemmas about first-occurrence deduplication -/

theorem mem_uniqueGo (v : Value) :
    ∀ (l seen : List Value), v ∈ uniqueGo seen l ↔ (v ∈ l ∧ v ∉ seen) := by
  intro l
  induction l with
  | nil => intro seen; simp [uniqueGo]
  | cons x rest ih =>
    intro seen
    by_cases hx : x ∈ seen
    · rw [uniqueGo, if_pos hx, ih]
      constructor
      · rintro ⟨h1, h2⟩
        exact ⟨List.mem_cons_of_mem _ h1, h2⟩
      · rintro ⟨h1, h2⟩
        rcases List.mem_cons.mp h1 with rfl | h1
        · exact absurd hx h2
        · exact ⟨h1, h2⟩
    · rw [uniqueGo, if_neg hx]
      constructor
      · intro hmem
        rcases List.mem_cons.mp hmem with rfl | hmem
        · exact ⟨List.mem_cons_self _ _, hx⟩
        · have h' := (ih (x :: seen)).mp hmem
          exact ⟨List.mem_cons_of_mem _ h'.1,
            fun hs => h'.2 (List.mem_cons_of_mem _ hs)⟩
      · rintro ⟨h1, h2⟩
        rcases List.mem_cons.mp h1 with rfl | h1
        · exact List.mem_cons_self _ _
        · by_cases hvx : v = x
          · subst hvx; exact List.mem_cons_self _ _
          · refine List.mem_cons_of_mem _ ((ih (x :: seen)).mpr ⟨h1, ?_⟩)
            intro hs
            rcases List.mem_cons.mp hs with h' | h'
            · exact hvx h'
            · exact h2 h'

theorem nodup_uniqueGo : ∀ (l seen : List Value), (uniqueGo seen l).Nodup := by
  intro l
  induction l with
  | nil => intro seen; simp [uniqueGo]
  | cons x rest ih =>
    intro seen
    by_cases hx : x ∈ seen
    · rw [uniqueGo, if_pos hx]; exact ih seen
    · rw [uniqueGo, if_neg hx]
      refine List.nodup_cons.mpr ⟨?_, ih _⟩
      intro hmem
      exact ((mem_uniqueGo x rest (x :: seen)).mp hmem).2 (List.mem_cons_self _ _)

theorem mem_uniqueFirst (v : Value) (l : List Value) :
    v ∈ uniqueFirst l ↔ v ∈ l := by
  rw [uniqueFirst, mem_uniqueGo]
  simp

theorem uniqueFirst_head (l : List Value) (a : Value) (t : List Value)
    (h : uniqueFirst l = a :: t) : l.head? = some a := by
  cases l with
  | nil => simp [uniqueFirst, uniqueGo] at h
  | cons x rest =>
    rw [uniqueFirst, uniqueGo, if_neg (List.not_mem_nil x)] at h
    injection h with h1 _
    rw [h1]
    rfl

theorem uniqueFirst_pair_ne (l : List Value) (a b : Value)
    (h : uniqueFirst l = [a, b]) : a ≠ b := by
  have hnd : (uniqueFirst l).Nodup := nodup_uniqueGo l []
  rw [h, List.nodup_cons] at hnd
  intro he
  exact hnd.1 (by simp [he])

theorem length_le_two_of_subset01 (vs : List Value) (hnd : vs.Nodup)
    (hs : subset01 vs = true) : vs.length ≤ 2 := by
  rcases vs with _ | ⟨a, _ | ⟨b, _ | ⟨c, rest⟩⟩⟩
  · simp
  · simp
  · simp
  · exfalso
    simp only [subset01, List.all_cons, Bool.and_eq_true, decide_eq_true_eq] at hs
    obtain ⟨ha, hb, hc, -⟩ := hs
    simp only [List.nodup_cons, List.mem_cons] at hnd
    rcases ha with rfl | rfl <;> rcases hb with rfl | rfl <;>
      rcases hc with rfl | rfl <;> simp_all

/-! ### Helper lemmas about the integer casts -/

theorem seriesToInt_none (g : Value → Option Int) :
    ∀ l : List Cell, none ∈ l → seriesToInt g l = none := by
  intro l
  induction l with
  | nil => intro h; cases h
  | cons c rest ih =>
    intro h
    rcases List.mem_cons.mp h with hc | hr
    · rw [seriesToInt, ← hc]
      cases seriesToInt g rest <;> rfl
    · rw [seriesToInt, ih hr]
      cases c.bind g <;> rfl

theorem seriesToInt_map_some (g : Value → Option Int) (h : Value → Int) :
    ∀ vals : List Value, (∀ v ∈ vals, g v = some (h v)) →
      seriesToInt g (vals.map some) = some (vals.map h) := by
  intro vals
  induction vals with
  | nil => intro _; rfl
  | cons v rest ih =>
    intro hv
    rw [List.map_cons, List.map_cons, seriesToInt,
      show (some v).bind g = g v from rfl,
      hv v (List.mem_cons_self _ _),
      ih (fun u hu => hv u (List.mem_cons_of_mem _ hu))]

theorem filterMap_id_map_some : ∀ vals : List Value,
    (vals.map some).filterMap id = vals := by
  intro vals
  induction vals with
  | nil => rfl
  | cons v rest ih => simp [List.filterMap_cons, ih]

/-! ### Helper lemmas about the categorical loop -/

theorem map_getD_of_isSome (m : Value) :
    ∀ l : List Cell, (∀ c ∈ l, c.isSome = true) →
      l.map (fun c => some (c.getD m)) = l := by
  intro l
  induction l with
  | nil => intro _; rfl
  | cons c rest ih =>
    intro h
    obtain ⟨x, rfl⟩ := Option.isSome_iff_exists.mp (h c (List.mem_cons_self _ _))
    rw [List.map_cons, ih (fun d hd => h d (List.mem_cons_of_mem _ hd))]
    rfl

theorem processCategorical_eq_astype (col : List Cell) :
    processCategorical col = col.map astypeStr := by
  cases col with
  | nil => rfl
  | cons c rest =>
    have hsome : ∀ d ∈ (c :: rest).map astypeStr, d.isSome = true := by
      intro d hd
      obtain ⟨x, -, rfl⟩ := List.mem_map.mp hd
      rfl
    have hall : ((c :: rest).map astypeStr).all (fun d => d.isNone) = false := by
      rw [List.map_cons, List.all_cons]
      rfl
    rw [processCategorical]
    simp only [hall, Bool.false_eq_true, if_false]
    cases hmode : modeValue? ((c :: rest).map astypeStr) with
    | some m => exact map_getD_of_isSome m _ hsome
    | none => rfl

/-! ### Helper lemmas about the opset records -/

theorem get_version_list_set_same : ∀ (l : List OpsetId) (d : String) (v : Int),
    get_version_list (set_opset l d v) d = v := by
  intro l
  induction l with
  | nil => intro d v; simp [set_opset, get_version_list]
  | cons o rest ih =>
    intro d v
    by_cases h : o.domain = d
    · rw [set_opset, if_pos h, get_version_list, if_pos rfl]
    · rw [set_opset, if_neg h, get_version_list, if_neg h, ih]

theorem get_version_set_version_same (m : OnnxModel) (d : String) (v : Int) :
    get_version (set_version m d v) d = v := by
  rw [get_version, set_version, get_version_list_set_same]

theorem set_opset_absent : ∀ (l : List OpsetId) (d : String) (v : Int),
    (∀ o ∈ l, o.domain ≠ d) → set_opset l d v = l ++ [{ domain := d, version := v }] := by
  intro l
  induction l with
  | nil => intro d v _; rfl
  | cons o rest ih =>
    intro d v h
    rw [set_opset, if_neg (h o (List.mem_cons_self _ _)),
      ih d v (fun o' ho' => h o' (List.mem_cons_of_mem _ ho')), List.cons_append]

theorem filter_set_opset_default : ∀ (l : List OpsetId) (v : Int),
    (set_opset l "" v).filter (fun o => decide (o.domain ≠ ""))
      = l.filter (fun o => decide (o.domain ≠ "")) := by
  intro l
  induction l with
  | nil => intro v; rfl
  | cons o rest ih =>
    intro v
    by_cases h : o.domain = ""
    · simp [set_opset, h, List.filter_cons]
    · simpa [set_opset, h, List.filter_cons] using ih v

theorem get_version_list_set_ne : ∀ (l : List OpsetId) (d d' : String) (v : Int),
    d ≠ d' →
    get_version_list (set_opset l d' v) d = get_version_list l d := by
  intro l
  induction l with
  | nil =>
    intro d d' v h
    have hdd : ¬ (d' = d) := fun hh => h hh.symm
    simp [set_opset, get_version_list, hdd]
  | cons o rest ih =>
    intro d d' v h
    have hdd : ¬ (d' = d) := fun hh => h hh.symm
    by_cases ho : o.domain = d'
    · have hod : ¬ (o.domain = d) := fun hh => h (hh ▸ ho)
      rw [set_opset, if_pos ho, get_version_list, if_neg hdd,
        get_version_list, if_neg hod]
    · by_cases hod : o.domain = d
      · rw [set_opset, if_neg ho, get_version_list, if_pos hod,
          get_version_list, if_pos hod]
      · rw [set_opset, if_neg ho, get_version_list, if_neg hod,
          get_version_list, if_neg hod, ih d d' v h]

theorem get_version_set_version_ne (m : OnnxModel) (d d' : String) (v : Int)
    (h : d ≠ d') : get_version (set_version m d' v) d = get_version m d := by
  rw [get_version, set_version, get_version_list_set_ne m.opset_import d d' v h,
    get_version]

/-! ### Helper lemma about one-hot block widths -/

theorem length_oneHot_blocks :
    ∀ (pcs : List (String × List String)) (cats : List String),
      cats.length = pcs.length →
      (((pcs.zip cats).map (fun pc => oneHot pc.1.2 pc.2)).flatten).length
        = (pcs.map (fun c => c.2.length)).sum := by
  intro pcs
  induction pcs with
  | nil => intro cats _; simp
  | cons p rest ih =>
    intro cats h
    cases cats with
    | nil => simp at h
    | cons cv cr =>
      have hlen : cr.length = rest.length := by simpa using h
      simpa [List.zip_cons_cons, oneHot] using ih cr hlen

/-! ### Helper lemmas about target resolution -/

theorem subset01_mem (vs : List Value) (h : subset01 vs = true) :
    ∀ v ∈ vs, v = Value.num 0 ∨ v = Value.num 1 := by
  intro v hv
  have h2 := List.all_eq_true.mp h v hv
  exact of_decide_eq_true h2

theorem toInt64_of01 (v : Value) (h : v = Value.num 0 ∨ v = Value.num 1) :
    toInt64 v = some (if v = Value.num 1 then (1 : Int) else 0) := by
  rcases h with rfl | rfl <;> decide

theorem map_num_cast_eq_self : ∀ vals : List Value,
    (∀ v ∈ vals, v = Value.num 0 ∨ v = Value.num 1) →
    (vals.map (fun v => if v = Value.num 1 then (1 : Int) else 0)).map
      (fun n : Int => Value.num (n : ℚ)) = vals := by
  intro vals
  induction vals with
  | nil => intro _; rfl
  | cons v rest ih =>
    intro h
    rw [List.map_cons, List.map_cons,
      ih (fun u hu => h u (List.mem_cons_of_mem _ hu))]
    rcases h v (List.mem_cons_self _ _) with rfl | rfl
    · rw [if_neg (by decide)]
      simp
    · rw [if_pos rfl]
      simp

theorem resolveTarget_nonbinary (target : String) (tcol : List Cell)
    (h : 2 < (uniqueFirst (tcol.filterMap id)).length) :
    resolveTarget target tcol
      = .error (.nonBinaryTarget target (uniqueFirst (tcol.filterMap id))) := by
  simp only [resolveTarget]
  rw [if_pos h]

theorem resolveTarget_missing (target : String) (tcol : List Cell)
    (hmiss : none ∈ tcol)
    (hcard : (uniqueFirst (tcol.filterMap id)).length ≤ 2) :
    resolveTarget target tcol = .error .intCastOnMissing := by
  simp only [resolveTarget]
  rw [if_neg (by omega)]
  by_cases hsub : subset01 (uniqueFirst (tcol.filterMap id)) = true
  · rw [if_pos hsub, seriesToInt_none toInt64 tcol hmiss]
  · rw [if_neg hsub, seriesToInt_none _ tcol hmiss]

theorem resolveTarget_subset01 (target : String) (vals : List Value)
    (hsub : subset01 (uniqueFirst vals) = true) :
    resolveTarget target (vals.map some)
      = .ok (vals.map (fun v => if v = Value.num 1 then (1 : Int) else 0)) := by
  have hmem01 : ∀ v ∈ vals, v = Value.num 0 ∨ v = Value.num 1 := fun v hv =>
    subset01_mem _ hsub v ((mem_uniqueFirst v vals).mpr hv)
  have hlen : (uniqueFirst vals).length ≤ 2 :=
    length_le_two_of_subset01 _ (nodup_uniqueGo vals []) hsub
  simp only [resolveTarget, filterMap_id_map_some]
  rw [if_neg (by omega), if_pos hsub,
    seriesToInt_map_some toInt64 _ vals (fun v hv => toInt64_of01 v (hmem01 v hv))]

theorem resolveTarget_mapping (target : String) (vals : List Value) (a b : Value)
    (hu : uniqueFirst vals = [a, b])
    (hsub : subset01 (uniqueFirst vals) = false) :
    resolveTarget target (vals.map some)
      = .ok (vals.map (fun v => if v = a then (0 : Int) else 1)) := by
  have hab : a ≠ b := uniqueFirst_pair_ne vals a b hu
  have hg : ∀ v ∈ vals, targetMapping (uniqueFirst vals) v
      = some (if v = a then (0 : Int) else 1) := by
    intro v hv
    have hv2 : v ∈ ([a, b] : List Value) := hu ▸ (mem_uniqueFirst v vals).mpr hv
    rw [hu]
    rcases List.mem_cons.mp hv2 with rfl | hv3
    · simp [targetMapping, findIdxOf]
    · rcases List.mem_cons.mp hv3 with rfl | hv4
      · have hba : ¬ (a = v) := fun hh => hab hh
        have hva : ¬ (v = a) := fun hh => hab hh.symm
        simp [targetMapping, findIdxOf, hba, hva]
      · cases hv4
  have hlen2 : ¬ 2 < (uniqueFirst vals).length := by simp [hu]
  have hsub2 : ¬ (subset01 (uniqueFirst vals) = true) := by rw [hsub]; simp
  simp only [resolveTarget, filterMap_id_map_some]
  rw [if_neg hlen2, if_neg hsub2, seriesToInt_map_some _ _ vals hg]

/-! ### Helper lemmas about column-name maps -/

theorem map_fst_keyed {α : Type} (G : String → α) :
    ∀ ns : List String, (ns.map (fun n => (n, G n))).map Prod.fst = ns := by
  intro ns
  induction ns with
  | nil => rfl
  | cons n rest ih => simp [ih]

theorem map_name_float : ∀ ns : List String,
    (ns.map (fun c => ({ name := c, elem := .float, shape := [none, some 1] }
      : TensorDecl))).map TensorDecl.name = ns := by
  intro ns
  induction ns with
  | nil => rfl
  | cons n rest ih => simp [ih]

theorem map_name_string : ∀ ns : List String,
    (ns.map (fun c => ({ name := c, elem := .string, shape := [none, some 1] }
      : TensorDecl))).map TensorDecl.name = ns := by
  intro ns
  induction ns with
  | nil => rfl
  | cons n rest ih => simp [ih]

theorem initialTypes_names (ncs ccs : List String) :
    (initialTypes ncs ccs).map TensorDecl.name = ncs ++ ccs := by
  rw [initialTypes, List.map_append, map_name_float, map_name_string]

/-! ### Claim theorems -/

/-- Claim C1: whenever `load_and_preprocess` returns, the feature table's
column order is exactly the schema's numeric names followed by its
categorical names, and the exporter's input declarations (`initial_type`)
are laid out over that same ordered list. -/
theorem c1_feature_order (df : DataFrame) (schema : Schema)
    (X : DataFrame) (y : List Int) (nc cc : List String)
    (h : load_and_preprocess df schema = .ok (X, y, nc, cc)) :
    X.map Prod.fst
      = schema.numeric.map NumCol.name ++ schema.categorical.map CatCol.name
    ∧ nc = schema.numeric.map NumCol.name
    ∧ cc = schema.categorical.map CatCol.name
    ∧ (initialTypes nc cc).map TensorDecl.name = X.map Prod.fst := by
  simp only [load_and_preprocess] at h
  split at h
  · cases h
  · split at h
    · cases h
    · simp only [Except.ok.injEq, Prod.mk.injEq] at h
      obtain ⟨hX, -, hnc, hcc⟩ := h
      subst hX hnc hcc
      refine ⟨?_, rfl, rfl, ?_⟩
      · rw [map_fst_keyed]; rfl
      · rw [initialTypes_names, map_fst_keyed]; rfl

/-- Witness for C1 at a concrete frame and schema. -/
theorem c1_feature_order_witness :
    load_and_preprocess dfW1 schemaW1 = .ok (XW1, [0, 1, 0, 0], ["Age"], ["Sex"])
    ∧ XW1.map Prod.fst
      = schemaW1.numeric.map NumCol.name ++ schemaW1.categorical.map CatCol.name :=
  ⟨by rfl,
   (c1_feature_order dfW1 schemaW1 XW1 [0, 1, 0, 0] ["Age"] ["Sex"] (by rfl)).1⟩

/-- Claim C2, evaluated at a failing input: the categorical loop stringifies
before the null check, so the missing Sex cell of `dfC2` comes out as the
string "nan", not the most frequent observed value "male" that the claim
(and the loop's own comment) promises. -/
theorem c2_code_behavior :
    load_and_preprocess dfC2 schemaC2
      = .ok ([("Sex", [some (.str "male"), some (.str "nan")])],
          [0, 1], [], ["Sex"])
    ∧ Value.str "nan" ≠ Value.str "male" :=
  ⟨by rfl, by decide⟩

/-- Claim C4: before merging, both fragments' IR versions are set to the
maximum of the two originals; for the default domain, each declared version
(0 when absent) is read, the maximum is set on both fragments, and a
fragment with no default-domain record gets one appended. -/
theorem c4_version_reconciliation (a b : OnnxModel) :
    (reconcile a b).1.ir_version = max a.ir_version b.ir_version
    ∧ (reconcile a b).2.ir_version = max a.ir_version b.ir_version
    ∧ get_version (reconcile a b).1 "" = max (get_version a "") (get_version b "")
    ∧ get_version (reconcile a b).2 "" = max (get_version a "") (get_version b "")
    ∧ ((∀ o ∈ a.opset_import, o.domain ≠ "") →
        (reconcile a b).1.opset_import = a.opset_import
          ++ [{ domain := "", version := max (get_version a "") (get_version b "") }])
    ∧ ((∀ o ∈ b.opset_import, o.domain ≠ "") →
        (reconcile a b).2.opset_import = b.opset_import
          ++ [{ domain := "", version := max (get_version a "") (get_version b "") }]) := by
  refine ⟨rfl, rfl, ?_, ?_, ?_, ?_⟩
  · exact get_version_set_version_same _ "" _
  · exact get_version_set_version_same _ "" _
  · intro h
    exact set_opset_absent a.opset_import "" _ h
  · intro h
    exact set_opset_absent b.opset_import "" _ h

/-- Witness for C4: `onnxA4` has no default-domain record, `onnxB4` declares
version 15, so both fragments end at IR 9 and default-domain version 15,
with a record appended to `onnxA4`. -/
theorem c4_version_reconciliation_witness :
    (∀ o ∈ onnxA4.opset_import, o.domain ≠ "")
    ∧ (reconcile onnxA4 onnxB4).1.opset_import = onnxA4.opset_import
        ++ [{ domain := "",
              version := max (get_version onnxA4 "") (get_version onnxB4 "") }] :=
  ⟨by decide, (c4_version_reconciliation onnxA4 onnxB4).2.2.2.2.1 (by decide)⟩

/-- Claim C5: the model fragment's single declared input is a float tensor
whose width is read off the output of transforming one row through the
fitted preprocessing stage; that empirical width equals numeric count plus
the summed one-hot cardinalities, which differs from the schema's column
count (e.g. 4 ≠ 2 for `fpEx`). -/
theorem c5_model_input_width (p : FittedPreprocess) (nums : List ℚ)
    (cats : List String) (hc : cats.length = p.catCols.length) :
    lgb_initial_type p nums cats
      = [{ name := "preprocessed", elem := .float,
           shape := [none, some ((transformRow p nums cats).length)] }]
    ∧ transformed_dim p nums cats
      = nums.length + (p.catCols.map (fun c => c.2.length)).sum
    ∧ transformed_dim fpEx [30] ["S"]
      ≠ fpEx.numericCols.length + fpEx.catCols.length := by
  refine ⟨rfl, ?_, by decide⟩
  rw [transformed_dim, transformRow, List.length_append,
    length_oneHot_blocks p.catCols cats hc]

/-- Witness for C5 at the concrete fitted preprocessor `fpEx`. -/
theorem c5_model_input_width_witness :
    (["S"] : List String).length = fpEx.catCols.length
    ∧ transformed_dim fpEx [30] ["S"]
      = [(30 : ℚ)].length + (fpEx.catCols.map (fun c => c.2.length)).sum :=
  ⟨by decide, (c5_model_input_width fpEx [30] ["S"] (by decide)).2.1⟩

/-- Claim C8: the default-domain sync leaves every named-domain record of
both fragments untouched — the named-domain sublists are unchanged and every
named domain's declared version is preserved. -/
theorem c8_named_domains_untouched (a b : OnnxModel) (d : String) (hd : d ≠ "") :
    (sync_default_opset a b).1.opset_import.filter (fun o => decide (o.domain ≠ ""))
      = a.opset_import.filter (fun o => decide (o.domain ≠ ""))
    ∧ (sync_default_opset a b).2.opset_import.filter (fun o => decide (o.domain ≠ ""))
      = b.opset_import.filter (fun o => decide (o.domain ≠ ""))
    ∧ get_version (sync_default_opset a b).1 d = get_version a d
    ∧ get_version (sync_default_opset a b).2 d = get_version b d := by
  refine ⟨?_, ?_, ?_, ?_⟩
  · exact filter_set_opset_default a.opset_import _
  · exact filter_set_opset_default b.opset_import _
  · exact get_version_set_version_ne a d "" _ hd
  · exact get_version_set_version_ne b d "" _ hd

/-- Witness for C8 at concrete fragments and the named domain "ai.onnx.ml". -/
theorem c8_named_domains_untouched_witness :
    ("ai.onnx.ml" : String) ≠ ""
    ∧ get_version (sync_default_opset onnxA8 onnxB8).1 "ai.onnx.ml"
      = get_version onnxA8 "ai.onnx.ml" :=
  ⟨by decide,
   (c8_named_domains_untouched onnxA8 onnxB8 "ai.onnx.ml" (by decide)).2.2.1⟩

/-- Claim C9: because `astype(str)` runs before the null check, the
categorical loop is just elementwise stringification — no fill ever changes
a cell, no cell is missing afterwards, and a missing input cell comes out as
the literal string "nan". -/
theorem c9_stringify_no_missing (col : List Cell) :
    processCategorical col = col.map (fun c => some (Value.str (stringifyCell c)))
    ∧ (∀ c ∈ processCategorical col, c.isSome = true)
    ∧ (∀ i : Nat, col[i]? = some none →
        (processCategorical col)[i]? = some (some (Value.str "nan"))) := by
  have h1 : processCategorical col = col.map astypeStr :=
    processCategorical_eq_astype col
  refine ⟨h1, ?_, ?_⟩
  · intro c hc
    rw [h1] at hc
    obtain ⟨x, -, rfl⟩ := List.mem_map.mp hc
    rfl
  · intro i hi
    rw [h1, List.getElem?_map, hi]
    rfl

/-- Witness for C9 at a column with one observed and one missing cell. -/
theorem c9_stringify_no_missing_witness :
    processCategorical [some (Value.str "a"), none]
      = [some (Value.str "a"), some (Value.str "nan")]
    ∧ (processCategorical [some (Value.str "a"), none])[1]?
      = some (some (Value.str "nan")) :=
  ⟨by rw [(c9_stringify_no_missing [some (Value.str "a"), none]).1]; rfl,
   (c9_stringify_no_missing [some (Value.str "a"), none]).2.2 1 (by rfl)⟩

/-- Claim C3, counterexample: `dfC3x`'s target has distinct non-missing
values {0} ⊆ {0,1}, yet preprocessing raises at the integer cast (the target
also has a missing entry), so no target vector "mapped to itself" is
returned. -/
theorem c3_counterexample :
    subset01 (uniqueFirst ((getColD dfC3x "t").filterMap id)) = true
    ∧ load_and_preprocess dfC3x schemaC3x = .error PError.intCastOnMissing :=
  ⟨by decide, by rfl⟩

/-- Claim C3 as amended: with all schema columns present, more than two
distinct non-missing target values raise the non-binary-target error naming
the column and listing the distinct values; and when the distinct values lie
in {0,1} and the target has no missing entries, the returned vector encodes
each target value as itself. -/
theorem c3_target_resolution (df : DataFrame) (schema : Schema) (tcol : List Cell)
    (hall : ∀ n ∈ schema.target :: featureCols schema, (getCol? df n).isSome = true)
    (ht : getCol? df schema.target = some tcol)
    (hn1 : schema.target ∉ schema.numeric.map NumCol.name)
    (hn2 : schema.target ∉ schema.categorical.map CatCol.name) :
    (2 < (uniqueFirst (tcol.filterMap id)).length →
      load_and_preprocess df schema
        = .error (.nonBinaryTarget schema.target (uniqueFirst (tcol.filterMap id))))
    ∧ (∀ vals : List Value, tcol = vals.map some →
        subset01 (uniqueFirst vals) = true →
        ∃ X y, load_and_preprocess df schema
            = .ok (X, y, schema.numeric.map NumCol.name,
                schema.categorical.map CatCol.name)
          ∧ y.map (fun n : Int => Value.num (n : ℚ)) = vals) := by
  obtain ⟨X, hlp⟩ := lp_eq_resolve df schema tcol hall ht hn1 hn2
  constructor
  · intro hgt
    rw [hlp, resolveTarget_nonbinary schema.target tcol hgt]
    rfl
  · intro vals hvals hsub
    subst hvals
    refine ⟨X, vals.map (fun v => if v = Value.num 1 then (1 : Int) else 0), ?_, ?_⟩
    · rw [hlp, resolveTarget_subset01 schema.target vals hsub]
      rfl
    · exact map_num_cast_eq_self vals
        (fun v hv => subset01_mem _ hsub v ((mem_uniqueFirst v vals).mpr hv))

/-- Witness for the amended C3 at a fully observed {1,0}-valued target. -/
theorem c3_target_resolution_witness :
    subset01 (uniqueFirst [Value.num 1, Value.num 0, Value.num 1]) = true
    ∧ ∃ X y, load_and_preprocess dfC3w schemaC3w
        = .ok (X, y, schemaC3w.numeric.map NumCol.name,
            schemaC3w.categorical.map CatCol.name)
      ∧ y.map (fun n : Int => Value.num (n : ℚ))
        = [Value.num 1, Value.num 0, Value.num 1] :=
  ⟨by decide,
   (c3_target_resolution dfC3w schemaC3w
      [some (.num 1), some (.num 0), some (.num 1)]
      (by decide) (by rfl) (by decide) (by decide)).2
     [Value.num 1, Value.num 0, Value.num 1] (by rfl) (by decide)⟩

/-- Claim C6: with a fully observed target whose distinct values in
encounter order are `[a, b]` and are not all in {0,1}, preprocessing
succeeds and encodes `a` (the first value to appear in the data) as 0 and
`b` as 1 — the order is first-appearance, not alphabetic or label-driven. -/
theorem c6_encounter_order_encoding (df : DataFrame) (schema : Schema)
    (vals : List Value) (a b : Value)
    (hall : ∀ n ∈ schema.target :: featureCols schema, (getCol? df n).isSome = true)
    (ht : getCol? df schema.target = some (vals.map some))
    (hn1 : schema.target ∉ schema.numeric.map NumCol.name)
    (hn2 : schema.target ∉ schema.categorical.map CatCol.name)
    (hu : uniqueFirst vals = [a, b])
    (hsub : subset01 (uniqueFirst vals) = false) :
    vals.head? = some a
    ∧ ∃ X, load_and_preprocess df schema
        = .ok (X, vals.map (fun v => if v = a then (0 : Int) else 1),
            schema.numeric.map NumCol.name, schema.categorical.map CatCol.name) := by
  obtain ⟨X, hlp⟩ := lp_eq_resolve df schema (vals.map some) hall ht hn1 hn2
  refine ⟨uniqueFirst_head vals a [b] hu, X, ?_⟩
  rw [hlp, resolveTarget_mapping schema.target vals a b hu hsub]
  rfl

/-- Witness for C6: the string targets appear in the order "z", "a", so "z"
encodes to 0 and "a" to 1 despite "a" being alphabetically first. -/
theorem c6_encounter_order_encoding_witness :
    uniqueFirst [Value.str "z", Value.str "a", Value.str "z"]
      = [Value.str "z", Value.str "a"]
    ∧ ∃ X, load_and_preprocess dfC6 schemaC6
        = .ok (X, [Value.str "z", Value.str "a", Value.str "z"].map
            (fun v => if v = Value.str "z" then (0 : Int) else 1),
            schemaC6.numeric.map NumCol.name, schemaC6.categorical.map CatCol.name) :=
  ⟨by decide,
   (c6_encounter_order_encoding dfC6 schemaC6
      [Value.str "z", Value.str "a", Value.str "z"] (.str "z") (.str "a")
      (by decide) (by rfl) (by decide) (by decide) (by decide) (by decide)).2⟩

/-- Claim C10: a missing target entry always reaches the integer cast (in
either branch, given at most two distinct observed values) and makes
preprocessing raise there, so missing targets are never silently dropped or
encoded. -/
theorem c10_missing_target_cast_error (df : DataFrame) (schema : Schema)
    (tcol : List Cell)
    (hall : ∀ n ∈ schema.target :: featureCols schema, (getCol? df n).isSome = true)
    (ht : getCol? df schema.target = some tcol)
    (hn1 : schema.target ∉ schema.numeric.map NumCol.name)
    (hn2 : schema.target ∉ schema.categorical.map CatCol.name)
    (hmiss : none ∈ tcol)
    (hcard : (uniqueFirst (tcol.filterMap id)).length ≤ 2) :
    load_and_preprocess df schema = .error PError.intCastOnMissing := by
  obtain ⟨X, hlp⟩ := lp_eq_resolve df schema tcol hall ht hn1 hn2
  rw [hlp, resolveTarget_missing schema.target tcol hmiss hcard]
  rfl

/-- Witness for C10 at a target with one observed string and one missing
entry (the encounter-order branch). -/
theorem c10_missing_target_cast_error_witness :
    ((none : Cell) ∈ [some (Value.str "x"), (none : Cell)])
    ∧ load_and_preprocess dfC10 schemaC10 = .error PError.intCastOnMissing :=
  ⟨by decide,
   c10_missing_target_cast_error dfC10 schemaC10 [some (.str "x"), none]
     (by decide) (by rfl) (by decide) (by decide) (by decide) (by decide)⟩

/-- Claim C7: schema inference classifies every non-target, non-excluded
column by whether its sampled cells are uniformly numeric, emits median
imputation for numeric columns and most-frequent imputation plus one-hot
encoding for categorical ones, and never lists the target or an excluded
column. -/
theorem c7_infer_schema (cols : List (String × List String)) (target : String)
    (exclude : List String) :
    (∀ c ∈ (infer_schema cols target exclude).numeric, c.impute = "median")
    ∧ (∀ c ∈ (infer_schema cols target exclude).categorical,
        c.impute = "most_frequent" ∧ c.encode = "onehot")
    ∧ target ∉ (infer_schema cols target exclude).numeric.map NumCol.name
    ∧ target ∉ (infer_schema cols target exclude).categorical.map CatCol.name
    ∧ (∀ e ∈ exclude,
        e ∉ (infer_schema cols target exclude).numeric.map NumCol.name
        ∧ e ∉ (infer_schema cols target exclude).categorical.map CatCol.name)
    ∧ (∀ p ∈ cols, p.1 ≠ target → p.1 ∉ exclude →
        (isNumericCol p.2 = true →
          p.1 ∈ (infer_schema cols target exclude).numeric.map NumCol.name)
        ∧ (isNumericCol p.2 = false →
          p.1 ∈ (infer_schema cols target exclude).categorical.map CatCol.name))
    ∧ (∀ c ∈ (infer_schema cols target exclude).numeric,
        ∃ cells, (c.name, cells) ∈ cols ∧ isNumericCol cells = true)
    ∧ (∀ c ∈ (infer_schema cols target exclude).categorical,
        ∃ cells, (c.name, cells) ∈ cols ∧ isNumericCol cells = false) := by
  refine ⟨?_, ?_, ?_, ?_, ?_, ?_, ?_, ?_⟩
  · intro c hc
    simp only [infer_schema, List.partition_eq_filter_filter, List.mem_map] at hc
    obtain ⟨p, -, rfl⟩ := hc
    rfl
  · intro c hc
    simp only [infer_schema, List.partition_eq_filter_filter, List.mem_map] at hc
    obtain ⟨p, -, rfl⟩ := hc
    exact ⟨rfl, rfl⟩
  · intro hmem
    simp [infer_schema, List.partition_eq_filter_filter] at hmem
  · intro hmem
    simp [infer_schema, List.partition_eq_filter_filter] at hmem
  · intro e he
    constructor
    · intro hmem
      simp [infer_schema, List.partition_eq_filter_filter] at hmem
      obtain ⟨x, -, -, hnex, -⟩ := hmem
      exact hnex he
    · intro hmem
      simp [infer_schema, List.partition_eq_filter_filter] at hmem
      obtain ⟨x, -, -, hnex, -⟩ := hmem
      exact hnex he
  · intro p hp hne hnex
    constructor
    · intro hcls
      simp [infer_schema, List.partition_eq_filter_filter]
      exact ⟨p.2, hp, hcls, hnex, hne⟩
    · intro hcls
      simp [infer_schema, List.partition_eq_filter_filter]
      exact ⟨p.2, hp, hcls, hnex, hne⟩
  · intro c hc
    simp [infer_schema, List.partition_eq_filter_filter] at hc
    obtain ⟨a, ⟨x, hmem, hcl, -, -⟩, hmk⟩ := hc
    subst hmk
    exact ⟨x, hmem, hcl⟩
  · intro c hc
    simp [infer_schema, List.partition_eq_filter_filter] at hc
    obtain ⟨a, ⟨x, hmem, hcl, -, -⟩, hmk⟩ := hc
    subst hmk
    exact ⟨x, hmem, hcl⟩

/-- Witness for C7 at a concrete sampled frame: "Age" is classified numeric,
"Name" categorical, and the excluded "PassengerId" and target "Survived"
appear in neither list. -/
theorem c7_infer_schema_witness :
    ("Age", ["22", ""]) ∈ colsC7
    ∧ "Age" ∈ (infer_schema colsC7 "Survived" ["PassengerId"]).numeric.map NumCol.name
    ∧ "Name" ∈ (infer_schema colsC7 "Survived" ["PassengerId"]).categorical.map CatCol.name :=
  ⟨by decide,
   ((c7_infer_schema colsC7 "Survived" ["PassengerId"]).2.2.2.2.2.1
      ("Age", ["22", ""]) (by decide) (by decide) (by decide)).1 (by decide),
   ((c7_infer_schema colsC7 "Survived" ["PassengerId"]).2.2.2.2.2.1
      ("Name", ["Ann", "Bo"]) (by decide) (by decide) (by decide)).2 (by decide)⟩

end RtMl
